import Mathlib

/-!
Verification of the Result algebra implemented in `src/index.ts` (the two
core files, called here "file A" and "file B", are byte-identical except
for `ErrImpl.orElse`).  Results are a closed two-variant sum; JavaScript
exceptions are modelled with `Except`, thrown `Error` objects by their
message string, and the untyped JavaScript value universe (needed for the
`value != null` test of `fromNullable`) by the inductive `JsVal`.
-/

namespace TsError

/-- Result of a fallible computation: either `Ok(value)` or `Err(error)`,
mirroring the `OkImpl` / `ErrImpl` classes (the `_tag` discriminant is the
constructor). -/
inductive Result (T E : Type) where
  | ok (value : T)
  | err (error : E)
deriving Repr, DecidableEq

variable {T E U F V X : Type}

/-- The `isOk` field: `true` on `OkImpl`, `false` on `ErrImpl`. -/
def Result.isOk : Result T E → Bool
  | .ok _ => true
  | .err _ => false

/-- The `isErr` field: `false` on `OkImpl`, `true` on `ErrImpl`. -/
def Result.isErr : Result T E → Bool
  | .ok _ => false
  | .err _ => true

/-- Method `map`: `OkImpl.map` returns `ok(fn(this.value))`; `ErrImpl.map`
returns `err(this.error)` without using `fn`. -/
def Result.map (r : Result T E) (fn : T → U) : Result U E :=
  match r with
  | .ok v => .ok (fn v)
  | .err e => .err e

/-- Method `mapErr`: `OkImpl.mapErr` returns `ok(this.value)` without using
`fn`; `ErrImpl.mapErr` returns `err(fn(this.error))`. -/
def Result.mapErr (r : Result T E) (fn : E → F) : Result T F :=
  match r with
  | .ok v => .ok v
  | .err e => .err (fn e)

/-- Method `andThen`: `OkImpl.andThen` returns `fn(this.value)` as-is;
`ErrImpl.andThen` returns `err(this.error)` without using `fn`. -/
def Result.andThen (r : Result T E) (fn : T → Result U E) : Result U E :=
  match r with
  | .ok v => fn v
  | .err e => .err e

/-- Method `orElse` restricted to handlers that do not throw: `OkImpl.orElse`
returns `ok(this.value)` without using `fn` (both files); on `Err` both files
call `fn(this.error)` and return its value when it returns normally.  The
exception-channel variants of the `Err` branch are `orElseErrPlain` and
`orElseErrWrapping` below. -/
def Result.orElse (r : Result T E) (fn : E → Result T F) : Result T F :=
  match r with
  | .ok v => .ok v
  | .err e => fn e

/-- A JavaScript `Error` object, modelled by its `message` string. -/
structure JsError where
  message : String
deriving Repr, DecidableEq

/-- Stringification `String(e)` of a JS `Error` object: `"Error: " ++ message`. -/
def JsError.toStr (e : JsError) : String := "Error: " ++ e.message

/-- Method `unwrap`, with the thrown exception made explicit in an `Except`
channel.  `OkImpl.unwrap` returns `this.value`; `ErrImpl.unwrap` throws
`new Error` with message `Called unwrap on an Err value: ` followed by
`String(this.error)`; the ambient JS stringification of the error payload is
passed as `jsString`. -/
def Result.unwrap (jsString : E → String) : Result T E → Except JsError T
  | .ok v => .ok v
  | .err e => .error (JsError.mk ("Called unwrap on an Err value: " ++ jsString e))

/-- Method `expect`: `OkImpl.expect` returns `this.value`; `ErrImpl.expect`
throws `new Error` with message `msg ++ ": " ++ String(this.error)`. -/
def Result.expect (jsString : E → String) (msg : String) : Result T E → Except JsError T
  | .ok v => .ok v
  | .err e => .error (JsError.mk (msg ++ ": " ++ jsString e))

/-- File A's `ErrImpl.orElse` on the exception channel: calls `fn(this.error)`
inside a try/catch; on a thrown `error` it throws
`new Error("orElse handler threw: " + String(error))`.  `mkError` models the
`new Error` constructor on the thrown-value type `X` and `jsString` the JS
`String(...)` conversion. -/
def orElseErrWrapping (mkError : String → X) (jsString : X → String)
    (error : E) (fn : E → Except X (Result T F)) : Except X (Result T F) :=
  match fn error with
  | .ok r => .ok r
  | .error ex => .error (mkError ("orElse handler threw: " ++ jsString ex))

/-- File B's `ErrImpl.orElse` on the exception channel: `return fn(this.error)`
with no try/catch, so a thrown exception propagates untouched. -/
def orElseErrPlain (error : E) (fn : E → Except X (Result T F)) :
    Except X (Result T F) :=
  fn error

/-- The `tryCatch` helper.  The thunk's behaviour is its observed outcome
`fn : Except X T` (normal return of a `T`, or a thrown value of type `X`);
`errorHandler` is the optional handler and `cast` models the TypeScript
`error as E` cast used only when the handler is absent — the cast is erased
at runtime, so a well-typed call without a handler has `X = E` and
`cast = fun x => x`.  The body is
`try { return ok(fn()) } catch (error) { return err(errorHandler ? errorHandler(error) : error as E) }`. -/
def tryCatch (fn : Except X T) (errorHandler : Option (X → E)) (cast : X → E) :
    Result T E :=
  match fn with
  | .ok v => .ok v
  | .error ex =>
    .err (match errorHandler with
      | some handler => handler ex
      | none => cast ex)

/-- Loop of `combine`: walks the input pushing success payloads onto `values`
and returns `err(result.error)` at the first `Err`; at the end returns
`ok(values)`. -/
def combineGo (values : List T) : List (Result T E) → Result (List T) E
  | [] => .ok values
  | .err e :: _ => .err e
  | .ok v :: rest => combineGo (values ++ [v]) rest

/-- The `combine` helper (homogeneous model of the variadic source). -/
def combine (results : List (Result T E)) : Result (List T) E :=
  combineGo [] results

/-- Loop of `combineWithAllErrors`: pushes payloads onto `values` and error
payloads onto `errors`; at the end returns `err(errors)` if
`errors.length > 0`, else `ok(values)`. -/
def combineWithAllErrorsGo (values : List T) (errors : List E) :
    List (Result T E) → Result (List T) (List E)
  | [] => if errors.length > 0 then .err errors else .ok values
  | .err e :: rest => combineWithAllErrorsGo values (errors ++ [e]) rest
  | .ok v :: rest => combineWithAllErrorsGo (values ++ [v]) errors rest

/-- The `combineWithAllErrors` helper. -/
def combineWithAllErrors (results : List (Result T E)) :
    Result (List T) (List E) :=
  combineWithAllErrorsGo [] [] results

/-- Loop of `all`: identical shape to `combine`'s loop, on a homogeneous
list. -/
def allGo (values : List T) : List (Result T E) → Result (List T) E
  | [] => .ok values
  | .err e :: _ => .err e
  | .ok v :: rest => allGo (values ++ [v]) rest

/-- The `all` helper. -/
def all (results : List (Result T E)) : Result (List T) E :=
  allGo [] results

/-- Loop of `any`: returns the first `Ok` result as-is, otherwise remembers
`lastError = result.error` and after the loop returns `err(lastError as E)`.
`lastError` starts as `undefined`, modelled by `Option E` with
`none = undefined`, so the error type of the returned Result is honestly
`Option E`. -/
def anyGo (lastError : Option E) : List (Result T E) → Result T (Option E)
  | [] => .err lastError
  | .ok v :: _ => .ok v
  | .err e :: rest => anyGo (some e) rest

/-- The `any` helper. -/
def any (results : List (Result T E)) : Result T (Option E) :=
  anyGo none results

/-- The untyped JavaScript value universe, as far as `fromNullable` observes
it: `null`, `undefined`, and representative non-nullish primitives. -/
inductive JsVal where
  | vnull
  | vundefined
  | vbool (b : Bool)
  | vnum (n : Int)
  | vstr (s : String)
deriving Repr, DecidableEq

/-- The JavaScript loose test `value != null`, which is `false` exactly on
`null` and `undefined` (loose equality equates only those two with `null`). -/
def JsVal.neNull : JsVal → Bool
  | .vnull => false
  | .vundefined => false
  | .vbool _ => true
  | .vnum _ => true
  | .vstr _ => true

/-- The `fromNullable` helper:
`value != null ? ok(value as NonNullable<T>) : err(error)`. -/
def fromNullable (value : JsVal) (error : E) : Result JsVal E :=
  if value.neNull then .ok value else .err error

/-- Invocation phase of `parallel`: `operations.map(op => op())` invokes every
operation exactly once, in input order, and `Promise.all` delivers their
Results in input-index order.  An async operation is modelled as an effectful
computation `σ → σ × Result T E` on an explicit effect state, and the awaited
`Promise.all` as the input-order sequencing of those effects. -/
def runOps {σ : Type} : List (σ → σ × Result T E) → σ → σ × List (Result T E)
  | [], s => (s, [])
  | op :: rest, s =>
    ((runOps rest (op s).1).1, (op s).2 :: (runOps rest (op s).1).2)

/-- The `parallel` helper:
`const results = await Promise.all(operations.map(op => op())); return combine(results)`. -/
def parallel {σ : Type} (ops : List (σ → σ × Result T E)) (s : σ) :
    σ × Result (List T) E :=
  ((runOps ops s).1, combine (runOps ops s).2)

/-- Statement vocabulary: the success payloads of a list of Results, in
order. -/
def okValues : List (Result T E) → List T
  | [] => []
  | .ok v :: rest => v :: okValues rest
  | .err _ :: rest => okValues rest

/-- Statement vocabulary: the error payloads of a list of Results, in
order. -/
def errValues : List (Result T E) → List E
  | [] => []
  | .ok _ :: rest => errValues rest
  | .err e :: rest => e :: errValues rest

/-- Statement vocabulary: the error payload of the first `Err`, if any. -/
def firstError : List (Result T E) → Option E
  | [] => none
  | .ok _ :: rest => firstError rest
  | .err e :: _ => some e

/-! ## Helper lemmas (shared) -/

theorem firstError_of_all_ok (rs : List (Result T E))
    (h : ∀ r ∈ rs, r.isOk = true) : firstError rs = none := by
  induction rs with
  | nil => rfl
  | cons r rest ih =>
    cases r with
    | ok v => exact ih fun r hr => h r (List.mem_cons_of_mem _ hr)
    | err e => simp [Result.isOk] at h

theorem firstError_append_err (pre suf : List (Result T E)) (e : E)
    (h : ∀ r ∈ pre, r.isOk = true) :
    firstError (pre ++ Result.err e :: suf) = some e := by
  induction pre with
  | nil => rfl
  | cons r rest ih =>
    cases r with
    | ok v =>
      simpa [firstError] using ih fun r hr => h r (List.mem_cons_of_mem _ hr)
    | err e2 => simp [Result.isOk] at h

theorem errValues_of_all_ok (rs : List (Result T E))
    (h : ∀ r ∈ rs, r.isOk = true) : errValues rs = [] := by
  induction rs with
  | nil => rfl
  | cons r rest ih =>
    cases r with
    | ok v => exact ih fun r hr => h r (List.mem_cons_of_mem _ hr)
    | err e => simp [Result.isOk] at h

theorem errValues_ne_nil (rs : List (Result T E))
    (h : ∃ r ∈ rs, r.isErr = true) : errValues rs ≠ [] := by
  induction rs with
  | nil => simp at h
  | cons r rest ih =>
    cases r with
    | ok v =>
      have : ∃ r ∈ rest, r.isErr = true := by
        rcases h with ⟨r, hr, he⟩
        rcases List.mem_cons.mp hr with h1 | h1
        · subst h1; simp [Result.isErr] at he
        · exact ⟨r, h1, he⟩
      simpa [errValues] using ih this
    | err e => simp [errValues]

theorem combineGo_eq (acc : List T) (rs : List (Result T E)) :
    combineGo acc rs =
      match firstError rs with
      | none => Result.ok (acc ++ okValues rs)
      | some e => Result.err e := by
  induction rs generalizing acc with
  | nil => simp [combineGo, firstError, okValues]
  | cons r rest ih =>
    cases r with
    | ok v =>
      rw [combineGo, ih]
      cases h : firstError rest <;> simp [firstError, okValues, h]
    | err e => simp [combineGo, firstError]

theorem combineWithAllErrorsGo_eq (values : List T) (errors : List E)
    (rs : List (Result T E)) :
    combineWithAllErrorsGo values errors rs =
      if (errors ++ errValues rs).length > 0 then
        Result.err (errors ++ errValues rs)
      else Result.ok (values ++ okValues rs) := by
  induction rs generalizing values errors with
  | nil => simp [combineWithAllErrorsGo, errValues, okValues]
  | cons r rest ih =>
    cases r with
    | ok v =>
      rw [combineWithAllErrorsGo, ih]
      simp [okValues, errValues]
    | err e =>
      rw [combineWithAllErrorsGo, ih]
      simp [okValues, errValues]

theorem allGo_eq_combineGo (acc : List T) (rs : List (Result T E)) :
    allGo acc rs = combineGo acc rs := by
  induction rs generalizing acc with
  | nil => rfl
  | cons r rest ih =>
    cases r with
    | ok v => simpa [allGo, combineGo] using ih (acc ++ [v])
    | err e => rfl

/-! ## Claim theorems -/

/-- C2: functor and monad laws up to structural equality of Results: for
every Result `r` and pure functions `f`, `g`, mapping the identity is the
identity, mapping `f` then `g` is mapping the composite; `ok(a).andThen(f)`
is `f(a)` with no double wrapping, and binding `ok` is the identity. -/
theorem map_andThen_laws (r : Result T E) (f : T → U) (g : U → V)
    (a : T) (fm : T → Result U E) :
    r.map (fun x => x) = r ∧
    (r.map f).map g = r.map (fun x => g (f x)) ∧
    (Result.ok a : Result T E).andThen fm = fm a ∧
    r.andThen (fun x => Result.ok x) = r := by
  cases r <;> simp [Result.map, Result.andThen]

/-- C3: no method invokes the handler for the variant it does not own:
`err(e).andThen(fn)` and `err(e).map(fn)` are the `Err` carrying `e`,
independently of `fn` (stated by quantifying over two handlers), and
`ok(v).mapErr(fn)` and `ok(v).orElse(fn)` are the `Ok` carrying `v`,
independently of `fn`. -/
theorem no_cross_variant_invocation (e : E) (v : T)
    (fn1 fn2 : T → Result U E) (g1 g2 : T → U)
    (h1 h2 : E → F) (k1 k2 : E → Result T F) :
    (Result.err e : Result T E).andThen fn1 = Result.err e ∧
    (Result.err e : Result T E).andThen fn1 = (Result.err e : Result T E).andThen fn2 ∧
    (Result.err e : Result T E).map g1 = Result.err e ∧
    (Result.err e : Result T E).map g1 = (Result.err e : Result T E).map g2 ∧
    (Result.ok v : Result T E).mapErr h1 = Result.ok v ∧
    (Result.ok v : Result T E).mapErr h1 = (Result.ok v : Result T E).mapErr h2 ∧
    (Result.ok v : Result T E).orElse k1 = Result.ok v ∧
    (Result.ok v : Result T E).orElse k1 = (Result.ok v : Result T E).orElse k2 := by
  simp [Result.andThen, Result.map, Result.mapErr, Result.orElse]

/-- C4: on an `Err` carrying `e`, `unwrap()` throws an Error whose message
carries the stringified payload `String(e)` as a suffix (the message is
`Called unwrap on an Err value: ` followed by `String(e)`), and
`expect(msg)` throws an Error whose message is the caller-supplied `msg`
concatenated (with `": "`) with the stringified error; on an `Ok` carrying
`v`, both return `v` and never throw. -/
theorem unwrap_expect_spec (jsString : E → String) (e : E) (v : T) (msg : String) :
    Result.unwrap jsString (Result.err e : Result T E) =
      Except.error (JsError.mk ("Called unwrap on an Err value: " ++ jsString e)) ∧
    (∃ pre, Result.unwrap jsString (Result.err e : Result T E) =
      Except.error (JsError.mk (pre ++ jsString e))) ∧
    Result.expect jsString msg (Result.err e : Result T E) =
      Except.error (JsError.mk (msg ++ ": " ++ jsString e)) ∧
    Result.unwrap jsString (Result.ok v : Result T E) = Except.ok v ∧
    Result.expect jsString msg (Result.ok v : Result T E) = Except.ok v := by
  refine ⟨rfl, ⟨"Called unwrap on an Err value: ", rfl⟩, ?_, rfl, rfl⟩
  simp [Result.expect, String.append_assoc]

/-- C5: `tryCatch(fn, errorHandler)` returns `Ok(fn())` when the thunk
returns normally (whatever the handler argument), `Err(errorHandler(ex))`
when the thunk throws `ex` and a handler is supplied, and `Err(ex)` with the
raw caught value when no handler is supplied (the erased `as E` cast is the
identity); and it never re-throws: its outcome is always a proper Result
(the exception channel does not appear in its codomain). -/
theorem tryCatch_spec (v : T) (ex : X) (handler : X → E) (cast : X → E)
    (eh : Option (X → E)) (rawEx : E) (fn : Except X T) :
    tryCatch (Except.ok v) eh cast = Result.ok v ∧
    tryCatch (Except.error ex : Except X T) (some handler) cast = Result.err (handler ex) ∧
    tryCatch (Except.error rawEx : Except E T) none (fun x => x) = Result.err rawEx ∧
    ((tryCatch fn eh cast).isOk = true ∨ (tryCatch fn eh cast).isErr = true) := by
  refine ⟨rfl, rfl, rfl, ?_⟩
  cases fn with
  | ok v2 => exact Or.inl rfl
  | error ex2 => exact Or.inr (by cases eh <;> rfl)

/-- C9: `fromNullable(v, e)` returns `Ok(v)` exactly when `v` is neither
`null` nor `undefined` — in particular `0`, `false` and the empty string are
valid `Ok` payloads — and returns `Err(e)` when `v` is `null` or
`undefined`. -/
theorem fromNullable_spec (v : JsVal) (e : E) :
    (fromNullable v e = Result.ok v ↔ (v ≠ JsVal.vnull ∧ v ≠ JsVal.vundefined)) ∧
    fromNullable (JsVal.vnum 0) e = Result.ok (JsVal.vnum 0) ∧
    fromNullable (JsVal.vbool false) e = Result.ok (JsVal.vbool false) ∧
    fromNullable (JsVal.vstr "") e = Result.ok (JsVal.vstr "") ∧
    fromNullable JsVal.vnull e = Result.err e ∧
    fromNullable JsVal.vundefined e = Result.err e := by
  refine ⟨?_, rfl, rfl, rfl, rfl, rfl⟩
  cases v <;> simp [fromNullable, JsVal.neNull]

/-- C10: the homogeneous aggregator `all` is a refinement of `combine`: on
every list of Results the two return structurally equal Results — the same
`Ok` payload list in the same order, or an `Err` carrying the same first
error. -/
theorem all_refines_combine (rs : List (Result T E)) :
    all rs = combine rs := by
  simpa [all, combine] using allGo_eq_combineGo ([] : List T) rs

theorem anyGo_first_ok (le : Option E) (pre suf : List (Result T E)) (v : T)
    (h : ∀ r ∈ pre, r.isErr = true) :
    anyGo le (pre ++ Result.ok v :: suf) = Result.ok v := by
  induction pre generalizing le with
  | nil => rfl
  | cons r rest ih =>
    cases r with
    | ok w => simp [Result.isErr] at h
    | err e2 =>
      simpa [anyGo] using
        ih (some e2) fun r hr => h r (List.mem_cons_of_mem _ hr)

theorem anyGo_all_err (le : Option E) (rs : List (Result T E)) (e : E)
    (h : ∀ r ∈ rs, r.isErr = true) :
    anyGo le (rs ++ [Result.err e]) = Result.err (some e) := by
  induction rs generalizing le with
  | nil => rfl
  | cons r rest ih =>
    cases r with
    | ok w => simp [Result.isErr] at h
    | err e2 =>
      simpa [anyGo] using
        ih (some e2) fun r hr => h r (List.mem_cons_of_mem _ hr)

theorem runOps_fst {σ : Type} (ops : List (σ → σ × Result T E)) (s : σ) :
    (runOps ops s).1 = ops.foldl (fun st op => (op st).1) s := by
  induction ops generalizing s with
  | nil => rfl
  | cons op rest ih => simpa [runOps] using ih (op s).1

theorem runOps_length {σ : Type} (ops : List (σ → σ × Result T E)) (s : σ) :
    (runOps ops s).2.length = ops.length := by
  induction ops generalizing s with
  | nil => rfl
  | cons op rest ih => simpa [runOps] using ih (op s).1

theorem runOps_append {σ : Type} (ops1 ops2 : List (σ → σ × Result T E)) (s : σ) :
    (runOps (ops1 ++ ops2) s).2 =
      (runOps ops1 s).2 ++ (runOps ops2 (runOps ops1 s).1).2 := by
  induction ops1 generalizing s with
  | nil => rfl
  | cons op rest ih => simp [runOps, ih]

/-- C1: `combine` returns `Ok` of all success payloads in input order when
every element is `Ok` (so `Ok([])` on `[]`), and `Err` of the first `Err`
element's error payload otherwise, independently of everything past that
first `Err` (the suffix is arbitrary); `combineWithAllErrors` scans the
whole input, returning `Err` of all error payloads in encounter order when
at least one element is `Err`, and `Ok` of all payloads in order
otherwise. -/
theorem combine_combineWithAllErrors_spec (rs ms pre suf : List (Result T E)) (e : E)
    (hrs : ∀ r ∈ rs, r.isOk = true) (hpre : ∀ r ∈ pre, r.isOk = true)
    (hms : ∃ r ∈ ms, r.isErr = true) :
    combine rs = Result.ok (okValues rs) ∧
    combine (pre ++ Result.err e :: suf) = Result.err e ∧
    combineWithAllErrors ms = Result.err (errValues ms) ∧
    combineWithAllErrors rs = Result.ok (okValues rs) := by
  refine ⟨?_, ?_, ?_, ?_⟩
  · rw [combine, combineGo_eq, firstError_of_all_ok rs hrs]
    rfl
  · rw [combine, combineGo_eq, firstError_append_err pre suf e hpre]
  · rw [combineWithAllErrors, combineWithAllErrorsGo_eq]
    simp [List.length_pos, errValues_ne_nil ms hms]
  · rw [combineWithAllErrors, combineWithAllErrorsGo_eq, errValues_of_all_ok rs hrs]
    simp

/-- Witness for C1 at the spec's concrete inputs. -/
theorem combine_combineWithAllErrors_spec_witness :
    combine ([] : List (Result Nat String)) = Result.ok [] ∧
    combine [Result.ok 1, Result.err "a", Result.err "b"] = Result.err "a" ∧
    combineWithAllErrors [Result.ok 1, Result.err "a", Result.err "b"] =
      Result.err ["a", "b"] := by
  have h := combine_combineWithAllErrors_spec
    ([] : List (Result Nat String))
    [Result.ok 1, Result.err "a", Result.err "b"]
    [Result.ok 1] [Result.err "b"] "a"
    (by decide) (by decide) (by decide)
  exact ⟨h.1, h.2.1, h.2.2.1⟩

/-- C6: `any` returns the first `Ok` element when one exists, whatever
Results follow it; returns `Err` of the last `Err` element's error payload
when every element is `Err`; and on the empty list returns an `Err` wrapping
the undefined error value (`none`). -/
theorem any_spec (pre suf ers : List (Result T E)) (v : T) (e : E)
    (hpre : ∀ r ∈ pre, r.isErr = true) (hers : ∀ r ∈ ers, r.isErr = true) :
    any (pre ++ Result.ok v :: suf) = Result.ok v ∧
    any (ers ++ [Result.err e]) = Result.err (some e) ∧
    any ([] : List (Result T E)) = Result.err none := by
  exact ⟨anyGo_first_ok none pre suf v hpre, anyGo_all_err none ers e hers, rfl⟩

/-- Witness for C6 at the spec's concrete inputs. -/
theorem any_spec_witness :
    any [Result.err "e1", Result.ok 42, Result.err "e2"] = Result.ok 42 ∧
    any ([Result.err "x", Result.err "y"] : List (Result Nat String)) =
      Result.err (some "y") ∧
    any ([] : List (Result Nat String)) = Result.err none := by
  have h := any_spec [Result.err "e1"] [Result.err "e2"] [Result.err "x"]
    42 "y" (by decide) (by decide)
  exact ⟨h.1, h.2.1, h.2.2⟩

/-- C7 as stated is false: the two core files do not define the same
`orElse` behavior on `Err` when the handler throws.  With a handler that
throws an Error with message `boom`, file A's `orElse` throws a new wrapped
Error while file B's propagates the original exception untouched. -/
theorem orElse_variants_differ_on_throw :
    orElseErrWrapping JsError.mk JsError.toStr "e"
        (fun _ => (Except.error (JsError.mk "boom") : Except JsError (Result Nat Nat))) ≠
      orElseErrPlain "e"
        (fun _ => (Except.error (JsError.mk "boom") : Except JsError (Result Nat Nat))) := by
  intro h
  simp [orElseErrWrapping, orElseErrPlain, JsError.toStr] at h

/-- C7 (amended): on `Err`, both files return `fn(error)` when the handler
returns a Result, and that common case is uniform; but when the handler
throws `ex`, file B propagates `ex` untouched while file A throws a fresh
Error whose message is `orElse handler threw: ` followed by `String(ex)`. -/
theorem orElse_variants_spec (mkErrorFn : String → X) (jsString : X → String)
    (e : E) (fn g : E → Except X (Result T F)) (ex : X) (r : Result T F)
    (hf : fn e = Except.error ex) (hg : g e = Except.ok r) :
    orElseErrPlain e g = Except.ok r ∧
    orElseErrWrapping mkErrorFn jsString e g = Except.ok r ∧
    orElseErrPlain e fn = Except.error ex ∧
    orElseErrWrapping mkErrorFn jsString e fn =
      Except.error (mkErrorFn ("orElse handler threw: " ++ jsString ex)) := by
  refine ⟨hg, ?_, hf, ?_⟩
  · simp [orElseErrWrapping, hg]
  · simp [orElseErrWrapping, hf]

/-- Witness for the amended C7 at concrete handlers. -/
theorem orElse_variants_spec_witness :
    orElseErrPlain "e"
        (fun _ => (Except.ok (Result.ok 1) : Except JsError (Result Nat Nat))) =
      Except.ok (Result.ok 1) ∧
    orElseErrWrapping JsError.mk JsError.toStr "e"
        (fun _ => (Except.ok (Result.ok 1) : Except JsError (Result Nat Nat))) =
      Except.ok (Result.ok 1) ∧
    orElseErrPlain "e"
        (fun _ => (Except.error (JsError.mk "boom") : Except JsError (Result Nat Nat))) =
      Except.error (JsError.mk "boom") ∧
    orElseErrWrapping JsError.mk JsError.toStr "e"
        (fun _ => (Except.error (JsError.mk "boom") : Except JsError (Result Nat Nat))) =
      Except.error (JsError.mk ("orElse handler threw: " ++ JsError.toStr (JsError.mk "boom"))) := by
  exact orElse_variants_spec JsError.mk JsError.toStr "e"
    (fun _ => Except.error (JsError.mk "boom"))
    (fun _ => Except.ok (Result.ok 1))
    (JsError.mk "boom") (Result.ok 1) rfl rfl

/-- C8: `parallel` invokes every operation exactly once even when an earlier
operation produces an `Err` — the final effect state is the left fold of all
the operations' effects, unconditionally — the collected Result list has one
entry per operation, splits compositionally at any point of the input (so
entry `i` is operation `i` run on the state after operations `0..i-1`:
input-index order, not completion order), and the aggregate Result is
`combine` of those Results. -/
theorem parallel_spec {σ : Type} (ops ops1 ops2 : List (σ → σ × Result T E)) (s : σ) :
    (parallel ops s).1 = ops.foldl (fun st op => (op st).1) s ∧
    (runOps ops s).2.length = ops.length ∧
    (runOps (ops1 ++ ops2) s).2 =
      (runOps ops1 s).2 ++ (runOps ops2 (runOps ops1 s).1).2 ∧
    (parallel ops s).2 = combine (runOps ops s).2 := by
  exact ⟨runOps_fst ops s, runOps_length ops s, runOps_append ops1 ops2 s, rfl⟩

end TsError
